import Mathlib

/-!
Verification development for the rain-rust-sdk HTTP client library.

The definitions below are a shallow embedding of the repository's request
dispatcher (`src/client.rs`), its error types (`src/error.rs`), its auth
layer (`src/auth.rs`), the users resource methods (`src/api/users.rs`),
the document-upload helpers (`src/api/applications.rs`) and the JSON data
models for transactions and signatures (`src/models/transactions.rs`,
`src/models/signatures.rs`).  External crates that the code leans on are
modelled at the granularity the dispatcher observes them:

* `serde_json` values and `from_str` parsing (a small JSON value type and
  a total, fuel-driven parser for the RFC 8259 grammar as `serde_json`
  reads it: strict literals, no leading zeros, the four whitespace
  characters, whole-input consumption);
* the `url` crate's `Url::path_segments_mut().pop_if_empty().extend(..)`
  (segments `"."` and `".."` are skipped, every other segment is
  percent-encoded with the WHATWG special-path-segment encode set);
* Rust `&str` byte slicing (`&text[..n]` panics unless `n` is a UTF-8
  character boundary, modelled as an `Option` result);
* `http::HeaderValue::from_str` (every byte must be visible ASCII, space,
  tab, or an opaque byte `>= 0x80`) and the lower-cased header-name map
  of `http::HeaderMap` (later insertions of a name override earlier ones).
-/

namespace RainSdk

/-- JSON values as `serde_json` exposes them to the SDK.  Integral numbers
carry their `Int` value; a number written with a fraction or exponent is
kept as its lexeme in `numF`, since the SDK's integer fields reject it and
no claim depends on float arithmetic. -/
inductive Json where
  | null
  | bool (b : Bool)
  | num (n : Int)
  | numF (lexeme : String)
  | str (s : String)
  | arr (elems : List Json)
  | obj (fields : List (String × Json))

/-- First binding of a field name in a JSON object, as a struct
deserializer reads it. -/
def jlookup (fields : List (String × Json)) (k : String) : Option Json :=
  match fields with
  | [] => none
  | (k', v) :: rest => if k' = k then some v else jlookup rest k

/-- Size in bytes of one character under UTF-8, the unit in which Rust's
`str::len` and string indexing count. -/
def utf8Len (c : Char) : Nat :=
  if c.toNat < 0x80 then 1
  else if c.toNat < 0x800 then 2
  else if c.toNat < 0x10000 then 3
  else 4

/-- The UTF-8 encoding of one character as a list of byte values. -/
def utf8Bytes (c : Char) : List Nat :=
  let n := c.toNat
  if n < 0x80 then [n]
  else if n < 0x800 then [0xC0 + n / 0x40, 0x80 + n % 0x40]
  else if n < 0x10000 then
    [0xE0 + n / 0x1000, 0x80 + n / 0x40 % 0x40, 0x80 + n % 0x40]
  else
    [0xF0 + n / 0x40000, 0x80 + n / 0x1000 % 0x40,
     0x80 + n / 0x40 % 0x40, 0x80 + n % 0x40]

/-- Rust `str::len`: the length of a string in UTF-8 bytes. -/
def rustLen (s : String) : Nat :=
  (s.data.map utf8Len).sum

/-- Rust `&text[..n]`: the first `n` bytes of a string, or `none` when the
slice panics because `n` overruns the string or falls inside a multi-byte
character. -/
def byteSlice (s : String) (n : Nat) : Option String :=
  go s.data n []
where
  go : List Char → Nat → List Char → Option String
  | _, 0, acc => some (String.mk acc.reverse)
  | [], _ + 1, _ => none
  | c :: cs, n + 1, acc =>
    if utf8Len c ≤ n + 1 then go cs (n + 1 - utf8Len c) (c :: acc)
    else none

/-- Whitespace characters `serde_json` skips between tokens. -/
def isJsonWs (c : Char) : Bool :=
  c = ' ' || c = '\t' || c = '\n' || c = '\r'

/-- Drop leading JSON whitespace. -/
def skipWs : List Char → List Char
  | [] => []
  | c :: cs => if isJsonWs c then skipWs cs else c :: cs

/-- Value of a hexadecimal digit, if the character is one. -/
def hexVal (c : Char) : Option Nat :=
  if '0' ≤ c ∧ c ≤ '9' then some (c.toNat - '0'.toNat)
  else if 'a' ≤ c ∧ c ≤ 'f' then some (c.toNat - 'a'.toNat + 10)
  else if 'A' ≤ c ∧ c ≤ 'F' then some (c.toNat - 'A'.toNat + 10)
  else none

/-- Read exactly four hex digits into a code-unit value. -/
def parse4Hex : List Char → Option (Nat × List Char)
  | a :: b :: c :: d :: rest => do
    let x ← hexVal a
    let y ← hexVal b
    let z ← hexVal c
    let w ← hexVal d
    pure (((x * 16 + y) * 16 + z) * 16 + w, rest)
  | _ => none

/-- Body of a JSON string literal after the opening quote, with the escape
sequences `serde_json` accepts, including surrogate pairs written with
`\u`.  A lone surrogate or an unescaped control character is an error. -/
def parseStrBody : Nat → List Char → List Char → Option (String × List Char)
  | 0, _, _ => none
  | _ + 1, '"' :: rest, acc => some (String.mk acc.reverse, rest)
  | fuel + 1, '\\' :: e :: rest, acc =>
    match e with
    | '"' => parseStrBody fuel rest ('"' :: acc)
    | '\\' => parseStrBody fuel rest ('\\' :: acc)
    | '/' => parseStrBody fuel rest ('/' :: acc)
    | 'b' => parseStrBody fuel rest ('\x08' :: acc)
    | 'f' => parseStrBody fuel rest ('\x0c' :: acc)
    | 'n' => parseStrBody fuel rest ('\n' :: acc)
    | 'r' => parseStrBody fuel rest ('\r' :: acc)
    | 't' => parseStrBody fuel rest ('\t' :: acc)
    | 'u' =>
      match parse4Hex rest with
      | none => none
      | some (u, rest') =>
        if 0xD800 ≤ u ∧ u < 0xDC00 then
          match rest' with
          | '\\' :: 'u' :: rest'' =>
            match parse4Hex rest'' with
            | none => none
            | some (lo, rest3) =>
              if 0xDC00 ≤ lo ∧ lo < 0xE000 then
                let cp := 0x10000 + (u - 0xD800) * 0x400 + (lo - 0xDC00)
                parseStrBody fuel rest3 (Char.ofNat cp :: acc)
              else none
          | _ => none
        else if 0xDC00 ≤ u ∧ u < 0xE000 then none
        else parseStrBody fuel rest' (Char.ofNat u :: acc)
    | _ => none
  | fuel + 1, c :: rest, acc =>
    if c.toNat < 0x20 then none else parseStrBody fuel rest (c :: acc)
  | _ + 1, [], _ => none

/-- Decimal digit test. -/
def isDigitCh (c : Char) : Bool := '0' ≤ c && c ≤ '9'

/-- Take a maximal run of decimal digits. -/
def takeDigits : List Char → (List Char × List Char)
  | [] => ([], [])
  | c :: cs =>
    if isDigitCh c then
      let (ds, rest) := takeDigits cs
      (c :: ds, rest)
    else ([], c :: cs)

/-- Natural-number value of a digit run. -/
def digitsToNat (ds : List Char) : Nat :=
  ds.foldl (fun acc c => acc * 10 + (c.toNat - '0'.toNat)) 0

/-- Fraction part of a number literal: either absent, or a dot followed by
at least one digit. -/
def parseFracPart : List Char → Option (List Char × List Char)
  | '.' :: r =>
    match takeDigits r with
    | ([], _) => none
    | (ds, r') => some ('.' :: ds, r')
  | r => some ([], r)

/-- Exponent part of a number literal: either absent, or `e`/`E`, an
optional sign, and at least one digit. -/
def parseExpPart : List Char → Option (List Char × List Char)
  | [] => some ([], [])
  | e :: r =>
    if e = 'e' ∨ e = 'E' then
      let (sgn, r1) :=
        match r with
        | s :: r' => if s = '+' ∨ s = '-' then ([s], r') else (([] : List Char), s :: r')
        | [] => ([], [])
      match takeDigits r1 with
      | ([], _) => none
      | (ds, r2) => some (e :: (sgn ++ ds), r2)
    else some ([], e :: r)

/-- A JSON number literal as `serde_json` reads it: optional minus, an
integer part with no leading zero, then optional fraction and exponent.
Integral literals become `num`; anything with a fraction or exponent keeps
its lexeme in `numF`. -/
def parseNum (cs : List Char) : Option (Json × List Char) :=
  let (sign, cs1) :=
    match cs with
    | '-' :: r => (true, r)
    | r => (false, r)
  match cs1 with
  | [] => none
  | c :: rest =>
    if ¬ isDigitCh c then none
    else if c == '0' && (match rest with | d :: _ => isDigitCh d | [] => false) then none
    else
      let (intDs, restI) := if c = '0' then ([c], rest) else takeDigits cs1
      match parseFracPart restI with
      | none => none
      | some (fracCs, restF) =>
        match parseExpPart restF with
        | none => none
        | some (expCs, restE) =>
          if fracCs.isEmpty && expCs.isEmpty then
            let v : Int := Int.ofNat (digitsToNat intDs)
            some (.num (if sign then -v else v), restE)
          else
            let lex := String.mk ((if sign then ['-'] else []) ++ intDs ++ fracCs ++ expCs)
            some (.numF lex, restE)

mutual

/-- One JSON value, preceded by optional whitespace, as `serde_json`'s
parser reads it.  The fuel argument only bounds nesting; `parseJson`
passes enough for any input. -/
def parseValue : Nat → List Char → Option (Json × List Char)
  | 0, _ => none
  | fuel + 1, cs =>
    match skipWs cs with
    | 'n' :: 'u' :: 'l' :: 'l' :: rest => some (.null, rest)
    | 't' :: 'r' :: 'u' :: 'e' :: rest => some (.bool true, rest)
    | 'f' :: 'a' :: 'l' :: 's' :: 'e' :: rest => some (.bool false, rest)
    | '"' :: rest =>
      match parseStrBody (rest.length + 1) rest [] with
      | some (s, r) => some (.str s, r)
      | none => none
    | '[' :: rest =>
      match skipWs rest with
      | ']' :: r => some (.arr [], r)
      | r => parseArrElems fuel r []
    | '\x7b' :: rest =>
      match skipWs rest with
      | '\x7d' :: r => some (.obj [], r)
      | r => parseObjFields fuel r []
    | cs' => parseNum cs'

/-- Elements of a non-empty JSON array after the opening bracket. -/
def parseArrElems : Nat → List Char → List Json → Option (Json × List Char)
  | 0, _, _ => none
  | fuel + 1, cs, acc =>
    match parseValue fuel cs with
    | none => none
    | some (v, rest) =>
      match skipWs rest with
      | ',' :: r => parseArrElems fuel r (v :: acc)
      | ']' :: r => some (.arr (v :: acc).reverse, r)
      | _ => none

/-- Members of a non-empty JSON object after the opening brace. -/
def parseObjFields : Nat → List Char → List (String × Json) →
    Option (Json × List Char)
  | 0, _, _ => none
  | fuel + 1, cs, acc =>
    match skipWs cs with
    | '"' :: rest =>
      match parseStrBody (rest.length + 1) rest [] with
      | none => none
      | some (k, r1) =>
        match skipWs r1 with
        | ':' :: r2 =>
          match parseValue fuel r2 with
          | none => none
          | some (v, r3) =>
            match skipWs r3 with
            | ',' :: r4 => parseObjFields fuel r4 ((k, v) :: acc)
            | '\x7d' :: r4 => some (.obj ((k, v) :: acc).reverse, r4)
            | _ => none
        | _ => none
    | _ => none

end

/-- `serde_json` parsing of a complete input string: one value, with only
whitespace allowed after it. -/
def parseJson (s : String) : Option Json :=
  match parseValue (s.length + 1) s.data with
  | none => none
  | some (v, rest) => if (skipWs rest).isEmpty then some v else none

/-- Upper-case hexadecimal digit, as percent-encoding writes it. -/
def hexDigitUpper (n : Nat) : Char :=
  if n < 10 then Char.ofNat (0x30 + n) else Char.ofNat (0x41 + n - 10)

/-- The WHATWG special-path-segment percent-encode set used by the `url`
crate's `PathSegmentsMut` for `https` URLs: C0 controls, DEL, all bytes
at or above 0x80, space, quote, angle brackets, backquote, hash, question
mark, both braces, slash, percent and backslash. -/
def inSpecialPathSegmentSet (b : Nat) : Bool :=
  b < 0x20 || b == 0x7f || 0x80 ≤ b ||
  b == 0x20 || b == 0x22 || b == 0x3C || b == 0x3E || b == 0x60 ||
  b == 0x23 || b == 0x3F || b == 0x7B || b == 0x7D ||
  b == 0x2F || b == 0x25 || b == 0x5C

/-- Percent-encode one character of a path segment, byte by byte. -/
def percentEncodeChar (c : Char) : List Char :=
  ((utf8Bytes c).map fun b =>
    if inSpecialPathSegmentSet b then
      ['%', hexDigitUpper (b / 16), hexDigitUpper (b % 16)]
    else [Char.ofNat b]).flatten

/-- Percent-encode a whole path segment, as `PathSegmentsMut::extend` does
when it writes a segment into an `https` URL. -/
def encodeSegment (s : String) : String :=
  String.mk (s.data.map percentEncodeChar).flatten

/-- The parts of a parsed `url::Url` that the dispatcher reads or writes:
`path_segments_mut` rewrites only the path, so scheme, host and query ride
along unchanged. -/
structure UrlModel where
  scheme : String
  host : String
  pathSegments : List String
  query : Option String
deriving DecidableEq

/-- `PathSegmentsMut::pop_if_empty`: drop the final path segment when it
is empty, i.e. when the serialized path ends in a slash. -/
def popIfEmpty (segs : List String) : List String :=
  match segs.getLast? with
  | some "" => segs.dropLast
  | _ => segs

/-- Rust `path.strip_prefix('/').unwrap_or(path)`: remove at most one
leading slash. -/
def dropLeadingSlash (s : String) : String :=
  match s.data with
  | '/' :: rest => String.mk rest
  | _ => s

/-- Rust `str::split('/')`: the empty string yields one empty piece, and
adjacent separators yield empty pieces. -/
def splitOnSlash (s : String) : List String :=
  go s.data []
where
  go : List Char → List Char → List String
  | [], acc => [String.mk acc.reverse]
  | '/' :: rest, acc => String.mk acc.reverse :: go rest []
  | c :: rest, acc => go rest (c :: acc)

/-- ASCII lower-casing, as both `http` header-name normalization and the
uuid crate's canonical text use it. -/
def lowerChar (c : Char) : Char :=
  if 'A' ≤ c ∧ c ≤ 'Z' then Char.ofNat (c.toNat + 32) else c

/-- ASCII lower-casing of a string. -/
def lowerStr (s : String) : String :=
  String.mk (s.data.map lowerChar)

/-- `RainClient::build_url` (src/client.rs): strip one leading slash from
the relative path, split it on `/`, drop empty segments, then append the
rest onto the base URL with `pop_if_empty().extend(..)`.  `extend` skips
`"."` and `".."` segments and percent-encodes each appended segment with
the special-path-segment set.  The `Err` branch for non-hierarchical base
URLs cannot fire for the `https` bases this SDK configures, so the model
is total. -/
def build_url (base : UrlModel) (path : String) : UrlModel :=
  let pathToJoin := dropLeadingSlash path
  let segs := (splitOnSlash pathToJoin).filter (fun s => s ≠ "")
  let appended := (segs.filter (fun s => s ≠ "." ∧ s ≠ "..")).map encodeSegment
  { base with pathSegments := popIfEmpty base.pathSegments ++ appended }

/-- Serialized path of a URL, a slash before every segment. -/
def urlPathString (u : UrlModel) : String :=
  String.join (u.pathSegments.map (fun s => "/" ++ s))

/-- The dev-environment base URL `https://api-dev.raincards.xyz/v1/issuing`
from src/config.rs, as the `url` crate parses it. -/
def devBase : UrlModel :=
  { scheme := "https", host := "api-dev.raincards.xyz"
    pathSegments := ["v1", "issuing"], query := none }

/-- `ApiErrorResponse` (src/error.rs): the structured API error body, all
fields optional. -/
structure ApiErrorResponse where
  message : Option String
  code : Option String
  details : Option Json

/-- serde decoding of an `Option<String>` field: absent or `null` is
`None`, a string is `Some`, anything else is a type error. -/
def decodeOptString : Option Json → Except String (Option String)
  | none => .ok none
  | some .null => .ok none
  | some (.str s) => .ok (some s)
  | some _ => .error "invalid type"

/-- serde deserialization of `ApiErrorResponse` from a JSON value: the
value must be an object; unknown fields are ignored. -/
def decodeApiErrorResponse : Json → Except String ApiErrorResponse
  | .obj fields => do
    let message ← decodeOptString (jlookup fields "message")
    let code ← decodeOptString (jlookup fields "code")
    let details :=
      match jlookup fields "details" with
      | none => none
      | some .null => none
      | some v => some v
    .ok ⟨message, code, details⟩
  | _ => .error "invalid type: expected a map"

/-- `RainError` (src/error.rs).  `httpError` stands for reqwest transport
errors, `other` for the `anyhow`-wrapped catch-all; the payloads the
dispatcher constructs are kept verbatim. -/
inductive RainError where
  | httpError (msg : String)
  | apiError (status : Nat) (response : ApiErrorResponse)
  | authError (msg : String)
  | validationError (msg : String)
  | deserializationError
  | other (msg : String)

/-- Canonical reason phrases of the `http` crate for the status codes this
API uses; `StatusCode`'s `Display` prints them after the number. -/
def canonicalReason (status : Nat) : Option String :=
  match status with
  | 200 => some "OK"
  | 201 => some "Created"
  | 202 => some "Accepted"
  | 204 => some "No Content"
  | 400 => some "Bad Request"
  | 401 => some "Unauthorized"
  | 403 => some "Forbidden"
  | 404 => some "Not Found"
  | 409 => some "Conflict"
  | 423 => some "Locked"
  | 500 => some "Internal Server Error"
  | _ => none

/-- `Display` for `reqwest::StatusCode`: the number, a space, and the
canonical reason. -/
def statusDisplay (status : Nat) : String :=
  toString status ++ " " ++ (canonicalReason status).getD "<unknown status code>"

/-- The truncation step of the async handler's opaque-error branch:
`if text.len() > 200 { format!("{}...", &text[..200]) } else { text }`.
`none` models the panic of `&text[..200]` when byte 200 is not a
character boundary. -/
def truncateBody (text : String) : Option String :=
  if rustLen text > 200 then (byteSlice text 200).map (fun t => t ++ "...")
  else some text

/-- `serde_json::from_str::<T>` for a target type with decoder `dec`:
parse the text, then deserialize the value. -/
def fromStr (dec : Json → Except String α) (s : String) : Except String α :=
  match parseJson s with
  | none => .error "parse error"
  | some j => dec j

/-- An HTTP response as the handlers see it: status code, the request URL
reqwest echoes back, and the body read to a string. -/
structure HttpResponse where
  status : Nat
  url : String
  body : String

/-- `RainClient::handle_response` (src/client.rs, async): 202 with an
empty body tries `"{}"` then `"null"`; any other 2xx with an empty body
tries `"null"`; a non-empty 2xx body is deserialized as JSON; a non-2xx
body is first tried as `ApiErrorResponse` and otherwise becomes an opaque
error with the URL and the body truncated at byte 200.  The outer
`Option` is `none` exactly when the truncation slice panics. -/
def handle_response (dec : Json → Except String α) (r : HttpResponse) :
    Option (Except RainError α) :=
  if r.status = 202 then
    if r.body = "" then
      some (match fromStr dec "\x7b\x7d" with
        | .ok v => .ok v
        | .error _ =>
          match fromStr dec "null" with
          | .ok v => .ok v
          | .error _ => .error (.validationError "Empty response body"))
    else
      some (match fromStr dec r.body with
        | .ok v => .ok v
        | .error _ => .error .deserializationError)
  else if 200 ≤ r.status ∧ r.status ≤ 299 then
    if r.body = "" then
      some (match fromStr dec "null" with
        | .ok v => .ok v
        | .error _ => .error (.validationError "Empty response body"))
    else
      some (match fromStr dec r.body with
        | .ok v => .ok v
        | .error _ => .error .deserializationError)
  else
    match fromStr decodeApiErrorResponse r.body with
    | .ok apiErr => some (.error (.apiError r.status apiErr))
    | .error _ =>
      match truncateBody r.body with
      | none => none
      | some t =>
        some (.error (.other
          ("HTTP " ++ statusDisplay r.status ++ " from " ++ r.url ++ ": " ++ t)))

/-- `RainClient::handle_blocking_response` (src/client.rs, sync): the same
branch structure as the async handler, except that the opaque-error branch
writes `HTTP {status}: {text}` with the full body and no URL, and so never
slices and never panics. -/
def handle_blocking_response (dec : Json → Except String α) (r : HttpResponse) :
    Except RainError α :=
  if r.status = 202 then
    if r.body = "" then
      match fromStr dec "\x7b\x7d" with
      | .ok v => .ok v
      | .error _ =>
        match fromStr dec "null" with
        | .ok v => .ok v
        | .error _ => .error (.validationError "Empty response body")
    else
      match fromStr dec r.body with
      | .ok v => .ok v
      | .error _ => .error .deserializationError
  else if 200 ≤ r.status ∧ r.status ≤ 299 then
    if r.body = "" then
      match fromStr dec "null" with
      | .ok v => .ok v
      | .error _ => .error (.validationError "Empty response body")
    else
      match fromStr dec r.body with
      | .ok v => .ok v
      | .error _ => .error .deserializationError
  else
    match fromStr decodeApiErrorResponse r.body with
    | .ok apiErr => .error (.apiError r.status apiErr)
    | .error _ =>
      .error (.other ("HTTP " ++ statusDisplay r.status ++ ": " ++ r.body))

/-- Hexadecimal digit test, either case. -/
def isHexDigitCh (c : Char) : Bool :=
  isDigitCh c || ('a' ≤ c && c ≤ 'f') || ('A' ≤ c && c ≤ 'F')

/-- A UUID, carried as its canonical lower-case hyphenated text, which is
exactly what `Display` for `uuid::Uuid` writes into paths and queries. -/
structure Uuid where
  text : String
deriving DecidableEq

/-- Well-formedness of hyphenated UUID text: 36 characters, hyphens at
positions 8, 13, 18 and 23, hex digits elsewhere. -/
def uuidWf (s : String) : Bool :=
  s.length = 36 &&
  (s.data.enum.all fun p =>
    if p.1 = 8 ∨ p.1 = 13 ∨ p.1 = 18 ∨ p.1 = 23 then p.2 = '-'
    else isHexDigitCh p.2)

/-- `Uuid::parse_str` on the hyphenated form the API traffics in: accept
either case, store canonical lower case.  (The uuid crate also accepts
braced, simple and URN spellings; no SDK payload or claim uses them.) -/
def parseUuid (s : String) : Option Uuid :=
  if uuidWf s then some ⟨lowerStr s⟩ else none

/-- serde deserialization of a required `Uuid` field. -/
def decodeUuid : Option Json → Except String Uuid
  | some (.str s) =>
    match parseUuid s with
    | some u => .ok u
    | none => .error "UUID parsing failed"
  | some _ => .error "invalid type"
  | none => .error "missing field"

/-- serde deserialization of an `Option<Uuid>` field. -/
def decodeOptUuid : Option Json → Except String (Option Uuid)
  | none => .ok none
  | some .null => .ok none
  | some (.str s) =>
    match parseUuid s with
    | some u => .ok (some u)
    | none => .error "UUID parsing failed"
  | some _ => .error "invalid type"

/-- serde deserialization of a required `String` field. -/
def decodeString : Option Json → Except String String
  | some (.str s) => .ok s
  | some _ => .error "invalid type"
  | none => .error "missing field"

/-- serde deserialization of a required `i64` field: an integral JSON
number in the two's-complement 64-bit range. -/
def decodeI64 : Option Json → Except String Int
  | some (.num n) =>
    if -(2 ^ 63) ≤ n ∧ n < 2 ^ 63 then .ok n else .error "out of range"
  | some _ => .error "invalid type"
  | none => .error "missing field"

/-- serde deserialization of an `Option<i64>` field. -/
def decodeOptI64 : Option Json → Except String (Option Int)
  | none => .ok none
  | some .null => .ok none
  | some (.num n) =>
    if -(2 ^ 63) ≤ n ∧ n < 2 ^ 63 then .ok (some n) else .error "out of range"
  | some _ => .error "invalid type"

/-- serde deserialization of a required `bool` field. -/
def decodeBool : Option Json → Except String Bool
  | some (.bool b) => .ok b
  | some _ => .error "invalid type"
  | none => .error "missing field"

/-- An `f64` value as far as the SDK observes one: either an integral JSON
number or the lexeme of a fractional one.  No claim computes with it. -/
inductive F64 where
  | int (n : Int)
  | dec (lexeme : String)
deriving DecidableEq

/-- serde deserialization of a required `f64` field: any JSON number. -/
def decodeF64 : Option Json → Except String F64
  | some (.num n) => .ok (.int n)
  | some (.numF s) => .ok (.dec s)
  | some _ => .error "invalid type"
  | none => .error "missing field"

/-- Shape check for the RFC 3339 timestamps chrono's `DateTime<Utc>`
deserializer accepts: `YYYY-MM-DDTHH:MM:SS` followed by an optional
fraction and a zone designator.  The claims never exercise a date field;
this check only has to accept well-formed stamps and reject non-dates. -/
def rfc3339Shape (s : String) : Bool :=
  match s.data with
  | y1 :: y2 :: y3 :: y4 :: '-' :: m1 :: m2 :: '-' :: d1 :: d2 :: 'T' ::
    h1 :: h2 :: ':' :: n1 :: n2 :: ':' :: s1 :: s2 :: rest =>
    [y1, y2, y3, y4, m1, m2, d1, d2, h1, h2, n1, n2, s1, s2].all isDigitCh &&
    (match rest with
     | ['Z'] => true
     | '.' :: more => more.length > 1 && more.dropLast.all isDigitCh &&
         more.getLast? = some 'Z'
     | sgn :: o1 :: o2 :: ':' :: o3 :: o4 :: [] =>
       (sgn = '+' || sgn = '-') && [o1, o2, o3, o4].all isDigitCh
     | _ => false)
  | _ => false

/-- serde deserialization of an `Option<DateTime<Utc>>` field; the parsed
stamp is kept as its text. -/
def decodeOptDateTime : Option Json → Except String (Option String)
  | none => .ok none
  | some .null => .ok none
  | some (.str s) => if rfc3339Shape s then .ok (some s) else .error "bad date"
  | some _ => .error "invalid type"

/-- `CardType` (src/models/cards.rs), tag spellings `physical`/`virtual`. -/
inductive CardType where
  | physical
  | virtual
deriving DecidableEq

/-- serde deserialization of a required `CardType` field. -/
def decodeCardType : Option Json → Except String CardType
  | some (.str "physical") => .ok .physical
  | some (.str "virtual") => .ok .virtual
  | some _ => .error "unknown variant"
  | none => .error "missing field"

/-- `SpendTransactionStatus` (src/models/transactions.rs). -/
inductive SpendTransactionStatus where
  | pending
  | reversed
  | declined
  | completed
deriving DecidableEq

/-- serde deserialization of a required `SpendTransactionStatus` field. -/
def decodeSpendStatus : Option Json → Except String SpendTransactionStatus
  | some (.str "pending") => .ok .pending
  | some (.str "reversed") => .ok .reversed
  | some (.str "declined") => .ok .declined
  | some (.str "completed") => .ok .completed
  | some _ => .error "unknown variant"
  | none => .error "missing field"

/-- `PaymentTransactionStatus` (src/models/transactions.rs). -/
inductive PaymentTransactionStatus where
  | pending
  | completed
deriving DecidableEq

/-- serde deserialization of a required `PaymentTransactionStatus`. -/
def decodePaymentStatus : Option Json → Except String PaymentTransactionStatus
  | some (.str "pending") => .ok .pending
  | some (.str "completed") => .ok .completed
  | some _ => .error "unknown variant"
  | none => .error "missing field"

/-- `SpendTransaction` (src/models/transactions.rs), field for field. -/
structure SpendTransaction where
  amount : Int
  currency : String
  local_amount : Option Int
  local_currency : Option String
  authorized_amount : Option Int
  authorization_method : Option String
  memo : Option String
  receipt : Bool
  merchant_name : String
  merchant_category : String
  merchant_category_code : String
  merchant_id : Option String
  enriched_merchant_icon : Option String
  enriched_merchant_name : Option String
  enriched_merchant_category : Option String
  card_id : Uuid
  card_type : CardType
  company_id : Option Uuid
  user_id : Uuid
  user_first_name : String
  user_last_name : Option String
  user_email : String
  status : SpendTransactionStatus
  declined_reason : Option String
  authorized_at : String
  posted_at : Option String
deriving DecidableEq

/-- serde deserialization of `SpendTransaction` from an object's fields,
with the `rename` attributes of the source applied and unknown fields
ignored. -/
def decodeSpendTransaction (fields : List (String × Json)) :
    Except String SpendTransaction := do
  let amount ← decodeI64 (jlookup fields "amount")
  let currency ← decodeString (jlookup fields "currency")
  let local_amount ← decodeOptI64 (jlookup fields "localAmount")
  let local_currency ← decodeOptString (jlookup fields "localCurrency")
  let authorized_amount ← decodeOptI64 (jlookup fields "authorizedAmount")
  let authorization_method ← decodeOptString (jlookup fields "authorizationMethod")
  let memo ← decodeOptString (jlookup fields "memo")
  let receipt ← decodeBool (jlookup fields "receipt")
  let merchant_name ← decodeString (jlookup fields "merchantName")
  let merchant_category ← decodeString (jlookup fields "merchantCategory")
  let merchant_category_code ← decodeString (jlookup fields "merchantCategoryCode")
  let merchant_id ← decodeOptString (jlookup fields "merchantId")
  let enriched_merchant_icon ← decodeOptString (jlookup fields "enrichedMerchantIcon")
  let enriched_merchant_name ← decodeOptString (jlookup fields "enrichedMerchantName")
  let enriched_merchant_category ← decodeOptString (jlookup fields "enrichedMerchantCategory")
  let card_id ← decodeUuid (jlookup fields "cardId")
  let card_type ← decodeCardType (jlookup fields "cardType")
  let company_id ← decodeOptUuid (jlookup fields "companyId")
  let user_id ← decodeUuid (jlookup fields "userId")
  let user_first_name ← decodeString (jlookup fields "userFirstName")
  let user_last_name ← decodeOptString (jlookup fields "userLastName")
  let user_email ← decodeString (jlookup fields "userEmail")
  let status ← decodeSpendStatus (jlookup fields "status")
  let declined_reason ← decodeOptString (jlookup fields "declinedReason")
  let authorized_at ← decodeString (jlookup fields "authorizedAt")
  let posted_at ← decodeOptString (jlookup fields "postedAt")
  .ok { amount, currency, local_amount, local_currency, authorized_amount,
        authorization_method, memo, receipt, merchant_name, merchant_category,
        merchant_category_code, merchant_id, enriched_merchant_icon,
        enriched_merchant_name, enriched_merchant_category, card_id,
        card_type, company_id, user_id, user_first_name, user_last_name,
        user_email, status, declined_reason, authorized_at, posted_at }

/-- `CollateralTransaction` (src/models/transactions.rs). -/
structure CollateralTransaction where
  amount : F64
  currency : String
  chain_id : Int
  wallet_address : String
  transaction_hash : String
  memo : Option String
  company_id : Option Uuid
  user_id : Option Uuid
  posted_at : Option String
deriving DecidableEq

/-- serde deserialization of `CollateralTransaction` from an object's
fields. -/
def decodeCollateralTransaction (fields : List (String × Json)) :
    Except String CollateralTransaction := do
  let amount ← decodeF64 (jlookup fields "amount")
  let currency ← decodeString (jlookup fields "currency")
  let chain_id ← decodeI64 (jlookup fields "chainId")
  let wallet_address ← decodeString (jlookup fields "walletAddress")
  let transaction_hash ← decodeString (jlookup fields "transactionHash")
  let memo ← decodeOptString (jlookup fields "memo")
  let company_id ← decodeOptUuid (jlookup fields "companyId")
  let user_id ← decodeOptUuid (jlookup fields "userId")
  let posted_at ← decodeOptDateTime (jlookup fields "postedAt")
  .ok { amount, currency, chain_id, wallet_address, transaction_hash, memo,
        company_id, user_id, posted_at }

/-- `PaymentTransaction` (src/models/transactions.rs).  Its `postedAt` is
an `Option<String>` in the source, unlike the other variants. -/
structure PaymentTransaction where
  amount : Int
  currency : String
  status : PaymentTransactionStatus
  memo : Option String
  chain_id : Option Int
  wallet_address : Option String
  transaction_hash : Option String
  company_id : Option Uuid
  user_id : Option Uuid
  posted_at : Option String
deriving DecidableEq

/-- serde deserialization of `PaymentTransaction` from an object's
fields. -/
def decodePaymentTransaction (fields : List (String × Json)) :
    Except String PaymentTransaction := do
  let amount ← decodeI64 (jlookup fields "amount")
  let currency ← decodeString (jlookup fields "currency")
  let status ← decodePaymentStatus (jlookup fields "status")
  let memo ← decodeOptString (jlookup fields "memo")
  let chain_id ← decodeOptI64 (jlookup fields "chainId")
  let wallet_address ← decodeOptString (jlookup fields "walletAddress")
  let transaction_hash ← decodeOptString (jlookup fields "transactionHash")
  let company_id ← decodeOptUuid (jlookup fields "companyId")
  let user_id ← decodeOptUuid (jlookup fields "userId")
  let posted_at ← decodeOptString (jlookup fields "postedAt")
  .ok { amount, currency, status, memo, chain_id, wallet_address,
        transaction_hash, company_id, user_id, posted_at }

/-- `FeeTransaction` (src/models/transactions.rs). -/
structure FeeTransaction where
  amount : Int
  description : Option String
  company_id : Option Uuid
  user_id : Option Uuid
  posted_at : Option String
deriving DecidableEq

/-- serde deserialization of `FeeTransaction` from an object's fields. -/
def decodeFeeTransaction (fields : List (String × Json)) :
    Except String FeeTransaction := do
  let amount ← decodeI64 (jlookup fields "amount")
  let description ← decodeOptString (jlookup fields "description")
  let company_id ← decodeOptUuid (jlookup fields "companyId")
  let user_id ← decodeOptUuid (jlookup fields "userId")
  let posted_at ← decodeOptDateTime (jlookup fields "postedAt")
  .ok { amount, description, company_id, user_id, posted_at }

/-- `Transaction` (src/models/transactions.rs): the internally tagged
union over `type`, each variant an `id` plus a flattened detail struct. -/
inductive Transaction where
  | spend (id : Uuid) (spend : SpendTransaction)
  | collateral (id : Uuid) (collateral : CollateralTransaction)
  | payment (id : Uuid) (payment : PaymentTransaction)
  | fee (id : Uuid) (fee : FeeTransaction)
deriving DecidableEq

/-- serde deserialization of `Transaction`, driven by the `type` tag as
`#[serde(tag = "type")]` generates it: the value must be an object, the
tag must be one of the four known spellings, and the variant's fields are
then read from the same object. -/
def decodeTransaction : Json → Except String Transaction
  | .obj fields =>
    match jlookup fields "type" with
    | some (.str tag) =>
      if tag = "spend" then do
        let id ← decodeUuid (jlookup fields "id")
        let s ← decodeSpendTransaction fields
        .ok (.spend id s)
      else if tag = "collateral" then do
        let id ← decodeUuid (jlookup fields "id")
        let c ← decodeCollateralTransaction fields
        .ok (.collateral id c)
      else if tag = "payment" then do
        let id ← decodeUuid (jlookup fields "id")
        let p ← decodePaymentTransaction fields
        .ok (.payment id p)
      else if tag = "fee" then do
        let id ← decodeUuid (jlookup fields "id")
        let f ← decodeFeeTransaction fields
        .ok (.fee id f)
      else .error ("unknown variant `" ++ tag ++ "`")
    | some _ => .error "invalid type: tag is not a string"
    | none => .error "missing field `type`"
  | _ => .error "invalid type: expected a map"

/-- `SignatureStatus` (src/models/signatures.rs), lowercase spellings. -/
inductive SignatureStatus where
  | pending
  | ready
deriving DecidableEq

/-- serde deserialization of a required `SignatureStatus` field. -/
def decodeSignatureStatus : Option Json → Except String SignatureStatus
  | some (.str "pending") => .ok .pending
  | some (.str "ready") => .ok .ready
  | some _ => .error "unknown variant"
  | none => .error "missing field"

/-- `SignatureData` (src/models/signatures.rs). -/
structure SignatureData where
  data : String
  salt : String
deriving DecidableEq

/-- serde deserialization of a required `SignatureData` field. -/
def decodeSignatureData : Option Json → Except String SignatureData
  | some (.obj fields) => do
    let d ← decodeString (jlookup fields "data")
    let s ← decodeString (jlookup fields "salt")
    .ok { data := d, salt := s }
  | some _ => .error "invalid type"
  | none => .error "missing field"

/-- `PaymentSignatureResponse` (src/models/signatures.rs): the untagged
pending/ready union. -/
inductive PaymentSignatureResponse where
  | pending (status : SignatureStatus) (retry_after : Int)
  | ready (status : SignatureStatus) (signature : SignatureData)
      (expires_at : Option String)
deriving DecidableEq

/-- The `Pending` variant's structural match: requires `status` and
`retryAfter`, ignores anything else. -/
def decodePendingVariant : Json → Except String PaymentSignatureResponse
  | .obj fields => do
    let status ← decodeSignatureStatus (jlookup fields "status")
    let retry_after ← decodeI64 (jlookup fields "retryAfter")
    .ok (.pending status retry_after)
  | _ => .error "invalid type"

/-- The `Ready` variant's structural match: requires `status` and
`signature`, with an optional `expiresAt`. -/
def decodeReadyVariant : Json → Except String PaymentSignatureResponse
  | .obj fields => do
    let status ← decodeSignatureStatus (jlookup fields "status")
    let signature ← decodeSignatureData (jlookup fields "signature")
    let expires_at ← decodeOptDateTime (jlookup fields "expiresAt")
    .ok (.ready status signature expires_at)
  | _ => .error "invalid type"

/-- serde deserialization of the `#[serde(untagged)]` enum
`PaymentSignatureResponse`: try `Pending` first, then `Ready`, in the
variants' declaration order, taking the first structural match. -/
def decodePaymentSignatureResponse (j : Json) :
    Except String PaymentSignatureResponse :=
  match decodePendingVariant j with
  | .ok v => .ok v
  | .error _ =>
    match decodeReadyVariant j with
    | .ok v => .ok v
    | .error _ =>
      .error "data did not match any variant of untagged enum PaymentSignatureResponse"

/-- `ListUsersParams` (src/models/users.rs). -/
structure ListUsersParams where
  company_id : Option Uuid
  cursor : Option String
  limit : Option Nat

/-- The path string `RainClient::list_users` (src/api/users.rs) hands to
the GET helper: `/issuing/users`, then a `?`-prefixed query assembled by
pushing `companyId`, `cursor` and `limit` pairs in this order and joining
them with `&` — all inside the path string. -/
def list_users_path (params : ListUsersParams) : String :=
  let query_parts : List String :=
    (match params.company_id with
     | some cid => ["companyId=" ++ cid.text]
     | none => []) ++
    (match params.cursor with
     | some cur => ["cursor=" ++ cur]
     | none => []) ++
    (match params.limit with
     | some l => ["limit=" ++ toString l]
     | none => [])
  if query_parts.isEmpty then "/issuing/users"
  else "/issuing/users" ++ "?" ++ String.intercalate "&" query_parts

/-- Validity of a header value for `http::HeaderValue::from_str`: every
byte is tab, or at least 0x20 and not DEL. -/
def isValidHeaderValue (s : String) : Bool :=
  (s.data.map utf8Bytes).flatten.all fun b =>
    b == 0x09 || (0x20 ≤ b && b ≠ 0x7f)

/-- Header maps as `http::HeaderMap` exposes them: names are
case-insensitive, stored lower-case here. -/
def getHeader (hs : List (String × String)) (name : String) : Option String :=
  (hs.find? (fun p => p.1 = lowerStr name)).map (·.2)

/-- Merge request-level headers over client default headers, as reqwest
does when it sends: a name set on the request wins, other defaults are
filled in. -/
def mergeHeaders (defaults reqLevel : List (String × String)) :
    List (String × String) :=
  defaults.filter (fun p => reqLevel.all (fun q => q.1 ≠ p.1)) ++ reqLevel

/-- `Config` (src/config.rs), the parts the dispatcher reads. -/
structure Config where
  base_url : UrlModel
  timeout_secs : Nat
  user_agent : String

/-- `AuthConfig` (src/auth.rs). -/
structure AuthConfig where
  api_key : String

/-- `RainClient` (src/client.rs): configuration plus auth; the reqwest
transports are supplied separately at call time in this model. -/
structure RainClient where
  config : Config
  auth_config : AuthConfig

/-- `RainClient::new`: fails when the user agent is not a legal header
value (both the async and the blocking builder perform this check on the
same string). -/
def RainClient.new (config : Config) (auth_config : AuthConfig) :
    Except RainError RainClient :=
  if isValidHeaderValue config.user_agent then .ok ⟨config, auth_config⟩
  else .error (.other "Invalid user agent")

/-- The default header map both reqwest client builders install
(src/client.rs lines 120-127 and 139-146). -/
def defaultHeaders (config : Config) : List (String × String) :=
  [("accept", "application/json"),
   ("content-type", "application/json"),
   ("user-agent", config.user_agent)]

/-- One part of a multipart form. -/
inductive FormPart where
  | bytesPart (name : String) (fileName : String) (mime : String)
      (content : List Nat)
  | textPart (name : String) (value : String)
deriving DecidableEq

/-- A multipart form, its parts in insertion order. -/
structure Form where
  parts : List FormPart
deriving DecidableEq

/-- HTTP methods the dispatcher uses. -/
inductive HttpMethod where
  | get
  | post
  | patch
  | put
  | delete
deriving DecidableEq

/-- The dispatcher's operations (src/client.rs): the JSON verbs, the
raw-bytes GET, the custom-header variants, DELETE and the multipart
PUTs.  Extra headers are given with the case the call site wrote. -/
inductive DispatchOp where
  | getJson (path : String)
  | getBytes (path : String)
  | post (path : String) (body : Json)
  | patch (path : String) (body : Json)
  | put (path : String) (body : Json)
  | getWithHeaders (path : String) (extra : List (String × String))
  | putWithHeaders (path : String) (body : Json) (extra : List (String × String))
  | delete (path : String)
  | putMultipart (path : String) (form : Form)
  | putMultipartNoContent (path : String) (form : Form)

/-- An outgoing HTTP request as the transport receives it: the body is
kept as the JSON value whose `serde_json::to_vec` bytes are sent. -/
structure Request where
  method : HttpMethod
  url : UrlModel
  headers : List (String × String)
  body : Option Json
  multipart : Option Form

/-- Request construction of the async verb helpers (src/client.rs
lines 206-400): build the URL, start from the client's default headers,
add `Api-Key`, then any custom headers; multipart helpers instead write
their own Accept and User-Agent, add `Api-Key`, and let reqwest set the
multipart content type. -/
def asyncRequest (c : RainClient) (op : DispatchOp) : Request :=
  match op with
  | .getJson path =>
    { method := .get, url := build_url c.config.base_url path
      headers := mergeHeaders (defaultHeaders c.config)
        [("api-key", c.auth_config.api_key)]
      body := none, multipart := none }
  | .getBytes path =>
    { method := .get, url := build_url c.config.base_url path
      headers := mergeHeaders (defaultHeaders c.config)
        [("api-key", c.auth_config.api_key)]
      body := none, multipart := none }
  | .post path body =>
    { method := .post, url := build_url c.config.base_url path
      headers := mergeHeaders (defaultHeaders c.config)
        [("api-key", c.auth_config.api_key)]
      body := some body, multipart := none }
  | .patch path body =>
    { method := .patch, url := build_url c.config.base_url path
      headers := mergeHeaders (defaultHeaders c.config)
        [("api-key", c.auth_config.api_key)]
      body := some body, multipart := none }
  | .put path body =>
    { method := .put, url := build_url c.config.base_url path
      headers := mergeHeaders (defaultHeaders c.config)
        [("api-key", c.auth_config.api_key)]
      body := some body, multipart := none }
  | .getWithHeaders path extra =>
    { method := .get, url := build_url c.config.base_url path
      headers := mergeHeaders (defaultHeaders c.config)
        ([("api-key", c.auth_config.api_key)] ++
          extra.map (fun p => (lowerStr p.1, p.2)))
      body := none, multipart := none }
  | .putWithHeaders path body extra =>
    { method := .put, url := build_url c.config.base_url path
      headers := mergeHeaders (defaultHeaders c.config)
        ([("api-key", c.auth_config.api_key)] ++
          extra.map (fun p => (lowerStr p.1, p.2)))
      body := some body, multipart := none }
  | .delete path =>
    { method := .delete, url := build_url c.config.base_url path
      headers := mergeHeaders (defaultHeaders c.config)
        [("api-key", c.auth_config.api_key)]
      body := none, multipart := none }
  | .putMultipart path form =>
    { method := .put, url := build_url c.config.base_url path
      headers := mergeHeaders (defaultHeaders c.config)
        [("accept", "application/json"),
         ("user-agent", c.config.user_agent),
         ("api-key", c.auth_config.api_key),
         ("content-type", "multipart/form-data")]
      body := none, multipart := some form }
  | .putMultipartNoContent path form =>
    { method := .put, url := build_url c.config.base_url path
      headers := mergeHeaders (defaultHeaders c.config)
        [("accept", "application/json"),
         ("user-agent", c.config.user_agent),
         ("api-key", c.auth_config.api_key),
         ("content-type", "multipart/form-data")]
      body := none, multipart := some form }

/-- Request construction of the blocking verb helpers (src/client.rs
lines 402-537).  The three async-only operations — GET and PUT with
custom headers, and the value-returning multipart PUT — have no blocking
counterpart, hence `none`. -/
def blockingRequest (c : RainClient) (op : DispatchOp) : Option Request :=
  match op with
  | .getJson path =>
    some { method := .get, url := build_url c.config.base_url path
           headers := mergeHeaders (defaultHeaders c.config)
             [("api-key", c.auth_config.api_key)]
           body := none, multipart := none }
  | .getBytes path =>
    some { method := .get, url := build_url c.config.base_url path
           headers := mergeHeaders (defaultHeaders c.config)
             [("api-key", c.auth_config.api_key)]
           body := none, multipart := none }
  | .post path body =>
    some { method := .post, url := build_url c.config.base_url path
           headers := mergeHeaders (defaultHeaders c.config)
             [("api-key", c.auth_config.api_key)]
           body := some body, multipart := none }
  | .patch path body =>
    some { method := .patch, url := build_url c.config.base_url path
           headers := mergeHeaders (defaultHeaders c.config)
             [("api-key", c.auth_config.api_key)]
           body := some body, multipart := none }
  | .put path body =>
    some { method := .put, url := build_url c.config.base_url path
           headers := mergeHeaders (defaultHeaders c.config)
             [("api-key", c.auth_config.api_key)]
           body := some body, multipart := none }
  | .getWithHeaders _ _ => none
  | .putWithHeaders _ _ _ => none
  | .delete path =>
    some { method := .delete, url := build_url c.config.base_url path
           headers := mergeHeaders (defaultHeaders c.config)
             [("api-key", c.auth_config.api_key)]
           body := none, multipart := none }
  | .putMultipart _ _ => none
  | .putMultipartNoContent path form =>
    some { method := .put, url := build_url c.config.base_url path
           headers := mergeHeaders (defaultHeaders c.config)
             [("accept", "application/json"),
              ("user-agent", c.config.user_agent),
              ("api-key", c.auth_config.api_key),
              ("content-type", "multipart/form-data")]
           body := none, multipart := some form }

/-- `DocumentUploadParams` (src/models/applications.rs). -/
structure DocumentUploadParams where
  document_type : String
  side : String
  country : Option String
  country_code : Option String
  name : Option String
  file_path : String

/-- `RainClient::build_company_document_form` (src/api/applications.rs
lines 717-759): read the file from the local path — a failure becomes
`RainError::Other("Failed to read file: ..")` before anything is sent —
then assemble the binary `document` part (file name taken from the last
path component, MIME `application/octet-stream`) and the `type`, `side`
and optional `name`, `country`, `countryCode` text parts, in this order.
The filesystem is passed in as a read oracle. -/
def build_company_document_form (fs : String → Except String (List Nat))
    (params : DocumentUploadParams) : Except RainError Form :=
  match fs params.file_path with
  | .error e => .error (.other ("Failed to read file: " ++ e))
  | .ok file_bytes =>
    let file_name := ((splitOnSlash params.file_path).getLast?).getD "document"
    let parts0 : List FormPart :=
      [.bytesPart "document" file_name "application/octet-stream" file_bytes,
       .textPart "type" params.document_type,
       .textPart "side" params.side]
    let parts1 := parts0 ++
      (match params.name with
       | some n => [FormPart.textPart "name" n]
       | none => [])
    let parts2 := parts1 ++
      (match params.country with
       | some ct => [FormPart.textPart "country" ct]
       | none => [])
    let parts3 := parts2 ++
      (match params.country_code with
       | some cc => [FormPart.textPart "countryCode" cc]
       | none => [])
    .ok ⟨parts3⟩

/-- Decoder for `serde_json::Value`: every JSON value deserializes to
itself. -/
def decodeJsonValue : Json → Except String Json := .ok

/-- `RainClient::put_multipart` (src/client.rs lines 342-366) followed by
`handle_response`, with the issued requests logged.  The transport is a
pure oracle from requests to responses; the user-agent revalidation of
the source precedes the send. -/
def put_multipart_run (c : RainClient) (transport : Request → HttpResponse)
    (path : String) (form : Form) :
    Option (Except RainError Json) × List Request :=
  if isValidHeaderValue c.config.user_agent then
    let req := asyncRequest c (.putMultipart path form)
    (handle_response decodeJsonValue (transport req), [req])
  else (some (.error (.other "Invalid user agent")), [])

/-- `RainClient::upload_company_document` (src/api/applications.rs lines
259-267): build the path, build the form — propagating its error with
`?` — and only then invoke the multipart PUT. -/
def upload_company_document (c : RainClient)
    (fs : String → Except String (List Nat))
    (transport : Request → HttpResponse) (company_id : Uuid)
    (params : DocumentUploadParams) :
    Option (Except RainError Json) × List Request :=
  let path := "/applications/company/" ++ company_id.text ++ "/document"
  match build_company_document_form fs params with
  | .error e => (some (.error e), [])
  | .ok form => put_multipart_run c transport path form

/-- A path segment that the `url` crate appends verbatim: ASCII outside
the special-path-segment encode set, and not a dot segment.  Every
templated resource path of the SDK is built from such segments. -/
def plainSegment (s : String) : Bool :=
  s ≠ "." && s ≠ ".." &&
  s.data.all fun c => decide (c.toNat < 0x80) && !inSpecialPathSegmentSet c.toNat

/-- Agreement of two handler results up to the payload of the opaque
`Other` error: used to compare the async and blocking handlers, which
build that one message differently. -/
def agreeUpToOpaque : Except RainError α → Except RainError α → Prop
  | .error (.other _), .error (.other _) => True
  | a, b => a = b

/-- Extra headers that do not shadow the three invariant headers; every
call site of the custom-header helpers passes only `SessionId`. -/
def benignExtras : DispatchOp → Prop
  | .getWithHeaders _ extra =>
    ∀ p ∈ extra, lowerStr p.1 ≠ "accept" ∧ lowerStr p.1 ≠ "user-agent" ∧
      lowerStr p.1 ≠ "api-key"
  | .putWithHeaders _ _ extra =>
    ∀ p ∈ extra, lowerStr p.1 ≠ "accept" ∧ lowerStr p.1 ≠ "user-agent" ∧
      lowerStr p.1 ≠ "api-key"
  | _ => True

/-- A 202-byte response body — 199 `a`s, then `é`, then `!` — whose byte
200 falls inside the two-byte encoding of `é`. -/
def c10Body : String := String.mk (List.replicate 199 'a') ++ "é!"

/-- A 201-byte ASCII response body, long enough to trigger the async
handler's truncation. -/
def c4LongBody : String := String.mk (List.replicate 201 'a')

/-- A character outside the encode set is kept verbatim. -/
lemma percentEncodeChar_plain (c : Char) (h1 : c.toNat < 0x80)
    (h2 : inSpecialPathSegmentSet c.toNat = false) : percentEncodeChar c = [c] := by
  simp [percentEncodeChar, utf8Bytes, h1, h2, Char.ofNat_toNat]

/-- A plain segment is unchanged by path-segment percent-encoding. -/
lemma encodeSegment_plain (s : String) (h : plainSegment s = true) :
    encodeSegment s = s := by
  have hall : ∀ c ∈ s.data,
      c.toNat < 0x80 ∧ inSpecialPathSegmentSet c.toNat = false := by
    intro c hc
    have := (List.all_eq_true.mp (by
      simp only [plainSegment, Bool.and_eq_true] at h
      exact h.2)) c hc
    simpa using this
  unfold encodeSegment
  have hmap : s.data.map percentEncodeChar = s.data.map (fun c => [c]) :=
    List.map_congr_left fun c hc =>
      percentEncodeChar_plain c (hall c hc).1 (hall c hc).2
  rw [hmap]
  have : (s.data.map (fun c => [c])).flatten = s.data := by
    induction s.data with
    | nil => rfl
    | cons a t ih => simp [ih]
  rw [this]

/-- Filtering dot segments and encoding is the identity on a list of
plain segments. -/
lemma filterEncode_of_plain (l : List String)
    (h : ∀ s ∈ l, plainSegment s = true) :
    ((l.filter (fun s => s ≠ "." ∧ s ≠ "..")).map encodeSegment) = l := by
  induction l with
  | nil => rfl
  | cons a t ih =>
    have ha := h a (List.mem_cons_self a t)
    have hdot : a ≠ "." ∧ a ≠ ".." := by
      simp only [plainSegment, Bool.and_eq_true, decide_eq_true_eq] at ha
      exact ⟨ha.1.1, ha.1.2⟩
    rw [List.filter_cons]
    have hcond : (decide (a ≠ "." ∧ a ≠ "..")) = true := by
      simp [hdot.1, hdot.2]
    rw [if_pos hcond, List.map_cons, encodeSegment_plain a ha,
      ih (fun s hs => h s (List.mem_cons_of_mem a hs))]

/-- Looking a name up in merged headers: a name present on the request
level wins, otherwise the defaults answer. -/
lemma getHeader_mergeHeaders (d r : List (String × String)) (n : String) :
    getHeader (mergeHeaders d r) n =
      if r.any (fun q => q.1 = lowerStr n) then getHeader r n
      else getHeader d n := by
  unfold getHeader mergeHeaders
  rw [List.find?_append]
  by_cases hany : r.any (fun q => q.1 = lowerStr n) = true
  · rw [if_pos hany]
    have hnone : (d.filter fun p => r.all fun q => q.1 ≠ p.1).find?
        (fun p => p.1 = lowerStr n) = none := by
      rw [List.find?_eq_none]
      intro x hx hpx
      obtain ⟨-, hall⟩ := List.mem_filter.mp hx
      obtain ⟨q, hq, hq1⟩ := List.any_eq_true.mp hany
      have hne := List.all_eq_true.mp hall q hq
      simp only [decide_eq_true_eq] at hne hq1 hpx
      exact hne (hq1.trans hpx.symm)
    rw [hnone]
    cases r.find? (fun p => p.1 = lowerStr n) <;> rfl
  · rw [if_neg hany]
    have hrnone : r.find? (fun p => p.1 = lowerStr n) = none := by
      rw [List.find?_eq_none]
      intro x hx hpx
      exact hany (List.any_eq_true.mpr ⟨x, hx, hpx⟩)
    have hfilter : (d.filter fun p => r.all fun q => q.1 ≠ p.1).find?
        (fun p => p.1 = lowerStr n) = d.find? (fun p => p.1 = lowerStr n) := by
      induction d with
      | nil => rfl
      | cons p t ih =>
        by_cases hp : p.1 = lowerStr n
        · have hkeep : (r.all fun q => q.1 ≠ p.1) = true := by
            rw [List.all_eq_true]
            intro q hq
            simp only [decide_eq_true_eq]
            intro hqq
            exact hany (List.any_eq_true.mpr ⟨q, hq, by simp [hqq, hp]⟩)
          rw [List.filter_cons, if_pos hkeep]
          simp [List.find?, hp]
        · rw [List.filter_cons]
          by_cases hkeep : (r.all fun q => q.1 ≠ p.1) = true
          · rw [if_pos hkeep]
            simp only [List.find?, hp]
            simpa [hp] using ih
          · rw [if_neg hkeep]
            simp only [List.find?]
            simpa [hp] using ih
    rw [hfilter, hrnone]
    cases d.find? (fun p => p.1 = lowerStr n) <;> rfl

/-- Wherever a blocking counterpart exists, it builds the very same
request as the async helper. -/
lemma blockingRequest_eq_asyncRequest (c : RainClient) (op : DispatchOp)
    (r : Request) (h : blockingRequest c op = some r) :
    asyncRequest c op = r := by
  cases op <;> simp only [blockingRequest] at h <;> (try cases h) <;> rfl

/-- Agreement up to the opaque message is reflexive. -/
lemma agreeUpToOpaque_refl (x : Except RainError α) : agreeUpToOpaque x x := by
  match x with
  | .ok _ => rfl
  | .error (.httpError _) => rfl
  | .error (.apiError _ _) => rfl
  | .error (.authError _) => rfl
  | .error (.validationError _) => rfl
  | .error .deserializationError => rfl
  | .error (.other _) => trivial

/-- C1, counterexample: for the dev base URL and the relative path
`/issuing/users?limit=20` — a path `list_users` really hands to the
dispatcher — the URL built by `build_url` does not equal the base's path
segments concatenated with the path's non-empty segments: the `url`
crate percent-encodes the `?` into the final path segment. -/
theorem C1_counterexample :
    (build_url devBase "/issuing/users?limit=20").pathSegments =
      ["v1", "issuing", "issuing", "users%3Flimit=20"] ∧
    (build_url devBase "/issuing/users?limit=20").pathSegments ≠
      ["v1", "issuing", "issuing", "users?limit=20"] := by
  exact ⟨by decide, by decide⟩

/-- C1, amended: for every base URL and relative path whose non-empty
segments are plain — no characters of the path-segment encode set and no
dot segments, which covers every templated resource path of the SDK —
the built URL's path is the base's segments (less a single trailing empty
segment) concatenated with the path's non-empty segments, regardless of
leading or trailing slashes on either, and scheme, host and query are
untouched. -/
theorem C1_amended (base : UrlModel) (path : String)
    (h : ∀ s ∈ (splitOnSlash (dropLeadingSlash path)).filter (fun s => s ≠ ""),
      plainSegment s = true) :
    (build_url base path).pathSegments =
      popIfEmpty base.pathSegments ++
        (splitOnSlash (dropLeadingSlash path)).filter (fun s => s ≠ "") ∧
    (build_url base path).query = base.query ∧
    (build_url base path).scheme = base.scheme ∧
    (build_url base path).host = base.host := by
  refine ⟨?_, rfl, rfl, rfl⟩
  simp only [build_url]
  rw [filterEncode_of_plain _ h]

/-- C1, witness: joining `/users/{id}` (with a concrete UUID) onto the
dev base ending in `/v1/issuing` yields the concatenated path. -/
theorem C1_witness :
    (build_url devBase "/users/123e4567-e89b-12d3-a456-426614174000").pathSegments =
      ["v1", "issuing", "users", "123e4567-e89b-12d3-a456-426614174000"] := by
  have h :=
    (C1_amended devBase "/users/123e4567-e89b-12d3-a456-426614174000"
      (by decide)).1
  rw [h]
  decide

/-- C5: `list_users` with `cursor=None, limit=Some(20)` produces the path
string `/issuing/users?limit=20` with no `cursor` key; a present
`company_id` adds `companyId=..`, and parameters are joined with `&` in
the order companyId, cursor, limit.  But the `?<query>` suffix does not
survive URL construction as a query string: `build_url` percent-encodes
it into the final path segment and the built URL's query stays empty. -/
theorem C5_thm :
    list_users_path ⟨none, none, some 20⟩ = "/issuing/users?limit=20" ∧
    list_users_path
        ⟨some ⟨"123e4567-e89b-12d3-a456-426614174000"⟩, none, some 20⟩ =
      "/issuing/users?companyId=123e4567-e89b-12d3-a456-426614174000&limit=20" ∧
    list_users_path
        ⟨some ⟨"123e4567-e89b-12d3-a456-426614174000"⟩, some "abc", some 20⟩ =
      "/issuing/users?companyId=123e4567-e89b-12d3-a456-426614174000&cursor=abc&limit=20" ∧
    (build_url devBase (list_users_path ⟨none, none, some 20⟩)).pathSegments =
      ["v1", "issuing", "issuing", "users%3Flimit=20"] ∧
    (build_url devBase (list_users_path ⟨none, none, some 20⟩)).query = none := by
  exact ⟨rfl, rfl, rfl, by decide, rfl⟩

set_option maxRecDepth 8000 in
/-- C10: the truncation step of the async handler's opaque-error branch
is not total.  On a 202-byte body whose byte 200 falls inside a
multi-byte character, the slice `&text[..200]` has no result — the Rust
code panics — so `handle_response` reaches no return value on a non-2xx
response carrying that body. -/
theorem C10_thm :
    rustLen c10Body = 202 ∧
    (fromStr decodeApiErrorResponse c10Body).isOk = false ∧
    truncateBody c10Body = none ∧
    handle_response (fun _ => Except.ok Json.null)
      ⟨500, "https://api-dev.raincards.xyz/v1/issuing/users", c10Body⟩ =
      none := by
  refine ⟨by decide, by decide, by decide, rfl⟩

/-- C6: `Transaction` deserialization is driven by the `type` field — a
`spend` payload with the spend fields yields the Spend variant,
`collateral`, `payment` and `fee` payloads their variants — and any
payload whose `type` value is not one of those four strings (including a
missing tag) fails to deserialize. -/
theorem C6_thm :
    decodeTransaction (.obj
      [("type", .str "spend"),
       ("id", .str "11111111-2222-3333-4444-555555555555"),
       ("amount", .num 1250), ("currency", .str "USD"),
       ("receipt", .bool false),
       ("merchantName", .str "Coffee Shop"),
       ("merchantCategory", .str "restaurants"),
       ("merchantCategoryCode", .str "5812"),
       ("cardId", .str "22222222-3333-4444-5555-666666666666"),
       ("cardType", .str "virtual"),
       ("userId", .str "33333333-4444-5555-6666-777777777777"),
       ("userFirstName", .str "Ada"),
       ("userEmail", .str "ada@example.com"),
       ("status", .str "completed"),
       ("authorizedAt", .str "2024-01-02T03:04:05Z")]) =
      .ok (.spend ⟨"11111111-2222-3333-4444-555555555555"⟩
        { amount := 1250, currency := "USD", local_amount := none,
          local_currency := none, authorized_amount := none,
          authorization_method := none, memo := none, receipt := false,
          merchant_name := "Coffee Shop", merchant_category := "restaurants",
          merchant_category_code := "5812", merchant_id := none,
          enriched_merchant_icon := none, enriched_merchant_name := none,
          enriched_merchant_category := none,
          card_id := ⟨"22222222-3333-4444-5555-666666666666"⟩,
          card_type := .virtual, company_id := none,
          user_id := ⟨"33333333-4444-5555-6666-777777777777"⟩,
          user_first_name := "Ada", user_last_name := none,
          user_email := "ada@example.com", status := .completed,
          declined_reason := none, authorized_at := "2024-01-02T03:04:05Z",
          posted_at := none }) ∧
    decodeTransaction (.obj
      [("type", .str "collateral"),
       ("id", .str "11111111-2222-3333-4444-555555555555"),
       ("amount", .num 5), ("currency", .str "USDC"),
       ("chainId", .num 137),
       ("walletAddress", .str "0xabc"),
       ("transactionHash", .str "0xdef")]) =
      .ok (.collateral ⟨"11111111-2222-3333-4444-555555555555"⟩
        { amount := .int 5, currency := "USDC", chain_id := 137,
          wallet_address := "0xabc", transaction_hash := "0xdef",
          memo := none, company_id := none, user_id := none,
          posted_at := none }) ∧
    decodeTransaction (.obj
      [("type", .str "payment"),
       ("id", .str "11111111-2222-3333-4444-555555555555"),
       ("amount", .num 100), ("currency", .str "USD"),
       ("status", .str "pending")]) =
      .ok (.payment ⟨"11111111-2222-3333-4444-555555555555"⟩
        { amount := 100, currency := "USD", status := .pending,
          memo := none, chain_id := none, wallet_address := none,
          transaction_hash := none, company_id := none, user_id := none,
          posted_at := none }) ∧
    decodeTransaction (.obj
      [("type", .str "fee"),
       ("id", .str "11111111-2222-3333-4444-555555555555"),
       ("amount", .num 42)]) =
      .ok (.fee ⟨"11111111-2222-3333-4444-555555555555"⟩
        { amount := 42, description := none, company_id := none,
          user_id := none, posted_at := none }) ∧
    (∀ (fields : List (String × Json)) (tag : String),
       jlookup fields "type" = some (.str tag) →
       tag ≠ "spend" → tag ≠ "collateral" → tag ≠ "payment" → tag ≠ "fee" →
       (decodeTransaction (.obj fields)).isOk = false) ∧
    (∀ fields : List (String × Json), jlookup fields "type" = none →
       (decodeTransaction (.obj fields)).isOk = false) := by
  refine ⟨rfl, rfl, rfl, rfl, ?_, ?_⟩
  · intro fields tag hl h1 h2 h3 h4
    simp [decodeTransaction, hl, h1, h2, h3, h4, Except.isOk, Except.toBool]
  · intro fields hl
    simp [decodeTransaction, hl, Except.isOk, Except.toBool]

/-- C6, witness: a `refund` tag and a missing tag both fail. -/
theorem C6_witness :
    (decodeTransaction (.obj [("type", .str "refund")])).isOk = false ∧
    (decodeTransaction (.obj [("amount", .num 1)])).isOk = false :=
  ⟨C6_thm.2.2.2.2.1 _ "refund" rfl (by decide) (by decide) (by decide)
    (by decide),
   C6_thm.2.2.2.2.2 _ rfl⟩

/-- C7: `PaymentSignatureResponse` decodes by trying `Pending` then
`Ready` in declaration order: a payload with `retryAfter` and no
`signature` is Pending, a payload with a `signature` carrying `data` and
`salt` (and no `retryAfter`) is Ready, and a payload carrying both
matches Pending, the first variant tried. -/
theorem C7_thm (n : Int) (d s : String)
    (hn1 : -(2 ^ 63) ≤ n) (hn2 : n < 2 ^ 63) :
    decodePaymentSignatureResponse
      (.obj [("status", .str "pending"), ("retryAfter", .num n)]) =
      .ok (.pending .pending n) ∧
    decodePaymentSignatureResponse
      (.obj [("status", .str "ready"),
             ("signature", .obj [("data", .str d), ("salt", .str s)])]) =
      .ok (.ready .ready ⟨d, s⟩ none) ∧
    decodePaymentSignatureResponse
      (.obj [("status", .str "pending"), ("retryAfter", .num n),
             ("signature", .obj [("data", .str d), ("salt", .str s)])]) =
      .ok (.pending .pending n) := by
  norm_num at hn1 hn2
  refine ⟨?_, ?_, ?_⟩ <;>
    simp [decodePaymentSignatureResponse, decodePendingVariant,
      decodeReadyVariant, jlookup, decodeSignatureStatus, decodeI64,
      decodeSignatureData, decodeString, decodeOptDateTime, hn1, hn2,
      bind, Except.bind]

/-- C7, witness: the three shapes at concrete values. -/
theorem C7_witness :
    decodePaymentSignatureResponse
      (.obj [("status", .str "pending"), ("retryAfter", .num 5)]) =
      .ok (.pending .pending 5) ∧
    decodePaymentSignatureResponse
      (.obj [("status", .str "ready"),
             ("signature",
              .obj [("data", .str "0xsig"), ("salt", .str "0xsalt")])]) =
      .ok (.ready .ready ⟨"0xsig", "0xsalt"⟩ none) :=
  ⟨(C7_thm 5 "0xsig" "0xsalt" (by decide) (by decide)).1,
   (C7_thm 5 "0xsig" "0xsalt" (by decide) (by decide)).2.1⟩

/-- C2: on every non-2xx response the async handler first tries the body
as a structured `ApiErrorResponse`; success yields `ApiError` carrying
the original status, and failure yields the synthesized opaque error
carrying the status display and the body truncated at 200 bytes
(whenever that slice is defined — its panic is claim C10's subject). -/
theorem C2_thm {α : Type} (dec : Json → Except String α) (st : Nat)
    (u body : String) (hs : ¬(200 ≤ st ∧ st ≤ 299)) :
    (∀ e, fromStr decodeApiErrorResponse body = .ok e →
       handle_response dec ⟨st, u, body⟩ =
         some (.error (.apiError st e))) ∧
    ((fromStr decodeApiErrorResponse body).isOk = false →
       ∀ t, truncateBody body = some t →
         handle_response dec ⟨st, u, body⟩ =
           some (.error (.other
             ("HTTP " ++ statusDisplay st ++ " from " ++ u ++ ": " ++ t)))) := by
  have h202 : ¬(st = 202) := by
    intro h
    exact hs (by omega)
  constructor
  · intro e he
    simp [handle_response, h202, hs, he]
  · intro hfail t ht
    cases hok : fromStr decodeApiErrorResponse body with
    | ok e => rw [hok] at hfail; simp [Except.isOk, Except.toBool] at hfail
    | error msg => simp [handle_response, h202, hs, hok, ht]

/-- C2, witness: status 404 with body `{"message":"not found"}` yields an
API error with status 404 and message "not found"; status 500 with a
non-JSON body yields the opaque error with status and text. -/
theorem C2_witness :
    handle_response decodeJsonValue
      ⟨404, "u404", "\x7b\"message\":\"not found\"\x7d"⟩ =
      some (.error (.apiError 404 ⟨some "not found", none, none⟩)) ∧
    handle_response decodeJsonValue ⟨500, "u500", "internal error"⟩ =
      some (.error (.other
        ("HTTP " ++ statusDisplay 500 ++ " from " ++ "u500" ++ ": " ++
          "internal error"))) :=
  ⟨(C2_thm decodeJsonValue 404 "u404" "\x7b\"message\":\"not found\"\x7d"
      (by decide)).1 _ (by rfl),
   (C2_thm decodeJsonValue 500 "u500" "internal error" (by decide)).2
      (by rfl) _ (by rfl)⟩

/-- C3: the async handler's success decoding — 202 with an empty body
tries `"{}"` and falls back to `"null"`, any other 2xx with an empty body
tries `"null"` (covering 204), an empty body that fails even the null
fallback is a validation error, and a non-empty 2xx body is parsed as
JSON into the expected type. -/
theorem C3_thm {α : Type} (dec : Json → Except String α) (u : String)
    (st : Nat) (body : String) :
    (∀ v, dec (.obj []) = .ok v →
       handle_response dec ⟨202, u, ""⟩ = some (.ok v)) ∧
    ((dec (.obj [])).isOk = false → ∀ v, dec .null = .ok v →
       handle_response dec ⟨202, u, ""⟩ = some (.ok v)) ∧
    ((dec (.obj [])).isOk = false → (dec .null).isOk = false →
       handle_response dec ⟨202, u, ""⟩ =
         some (.error (.validationError "Empty response body"))) ∧
    (200 ≤ st → st ≤ 299 → st ≠ 202 →
       (∀ v, dec .null = .ok v →
          handle_response dec ⟨st, u, ""⟩ = some (.ok v)) ∧
       ((dec .null).isOk = false →
          handle_response dec ⟨st, u, ""⟩ =
            some (.error (.validationError "Empty response body")))) ∧
    (200 ≤ st → st ≤ 299 → body ≠ "" →
       handle_response dec ⟨st, u, body⟩ =
         some (match parseJson body with
           | none => .error .deserializationError
           | some j =>
             match dec j with
             | .ok v => .ok v
             | .error _ => .error .deserializationError)) := by
  have hobj : fromStr dec "\x7b\x7d" = dec (.obj []) := by
    simp [fromStr, show parseJson "\x7b\x7d" = some (.obj []) from rfl]
  have hnull : fromStr dec "null" = dec .null := by
    simp [fromStr, show parseJson "null" = some .null from rfl]
  refine ⟨?_, ?_, ?_, ?_, ?_⟩
  · intro v hv
    simp [handle_response, hobj, hv]
  · intro hfail v hv
    cases hok : dec (.obj []) with
    | ok w => rw [hok] at hfail; simp [Except.isOk, Except.toBool] at hfail
    | error m => simp [handle_response, hobj, hok, hnull, hv]
  · intro hfail1 hfail2
    cases hok1 : dec (.obj []) with
    | ok w => rw [hok1] at hfail1; simp [Except.isOk, Except.toBool] at hfail1
    | error m1 =>
      cases hok2 : dec .null with
      | ok w => rw [hok2] at hfail2; simp [Except.isOk, Except.toBool] at hfail2
      | error m2 => simp [handle_response, hobj, hok1, hnull, hok2]
  · intro hlo hhi h202
    constructor
    · intro v hv
      simp [handle_response, h202, hlo, hhi, hnull, hv]
    · intro hfail
      cases hok : dec .null with
      | ok w => rw [hok] at hfail; simp [Except.isOk, Except.toBool] at hfail
      | error m => simp [handle_response, h202, hlo, hhi, hnull, hok]
  · intro hlo hhi hbody
    by_cases h202 : st = 202
    · subst h202
      simp only [handle_response, if_pos rfl, if_neg hbody, fromStr]
      cases parseJson body with
      | none => rfl
      | some j => cases dec j <;> rfl
    · simp only [handle_response, if_neg h202,
        if_pos (show 200 ≤ st ∧ st ≤ 299 from ⟨hlo, hhi⟩), if_neg hbody,
        fromStr]
      cases parseJson body with
      | none => rfl
      | some j => cases dec j <;> rfl

/-- C3, witness: a 202 empty body decodes as `{}` for a `Value` target, a
204 empty body decodes as `null`, a failing decoder on an empty body
gives the validation error, and a non-empty 200 body parses as JSON. -/
theorem C3_witness :
    handle_response decodeJsonValue ⟨202, "u", ""⟩ =
      some (.ok (.obj [])) ∧
    handle_response decodeJsonValue ⟨204, "u", ""⟩ = some (.ok .null) ∧
    handle_response (fun _ => (Except.error "no" : Except String Unit))
      ⟨202, "u", ""⟩ =
      some (.error (.validationError "Empty response body")) ∧
    handle_response decodeJsonValue ⟨200, "u", "\x7b\x7d"⟩ =
      some (.ok (.obj [])) :=
  ⟨(C3_thm decodeJsonValue "u" 202 "").1 _ rfl,
   ((C3_thm decodeJsonValue "u" 204 "").2.2.2.1 (by decide) (by decide)
      (by decide)).1 _ rfl,
   (C3_thm (fun _ => (Except.error "no" : Except String Unit)) "u" 202
      "").2.2.1 rfl rfl,
   (C3_thm decodeJsonValue "u" 200 "\x7b\x7d").2.2.2.2 (by decide)
      (by decide) (by decide)⟩

/-- C8: when the local file does not exist, the document-upload method
returns the local file-read error — the spec's validation class, not a
transport (`HttpError`) or API error — and issues no HTTP request: form
construction precedes and gates the network call. -/
theorem C8_thm (c : RainClient) (fs : String → Except String (List Nat))
    (transport : Request → HttpResponse) (company_id : Uuid)
    (params : DocumentUploadParams) (e : String)
    (h : fs params.file_path = .error e) :
    upload_company_document c fs transport company_id params =
      (some (.error (.other ("Failed to read file: " ++ e))), []) ∧
    (∀ m, RainError.other ("Failed to read file: " ++ e) ≠ .httpError m) ∧
    (∀ st resp, RainError.other ("Failed to read file: " ++ e) ≠
       .apiError st resp) := by
  refine ⟨?_, fun m => nofun, fun st resp => nofun⟩
  simp [upload_company_document, build_company_document_form, h]

/-- C8, witness: a concrete client, missing file and transport. -/
theorem C8_witness :
    upload_company_document
      ⟨⟨devBase, 30, "rain-sdk/0.5.0"⟩, ⟨"key1"⟩⟩
      (fun _ => .error "No such file or directory (os error 2)")
      (fun _ => ⟨200, "", ""⟩)
      ⟨"123e4567-e89b-12d3-a456-426614174000"⟩
      ⟨"idCard", "front", none, none, none, "/tmp/missing.pdf"⟩ =
      (some (.error (.other
        ("Failed to read file: " ++
          "No such file or directory (os error 2)"))), []) :=
  (C8_thm ⟨⟨devBase, 30, "rain-sdk/0.5.0"⟩, ⟨"key1"⟩⟩
    (fun _ => .error "No such file or directory (os error 2)")
    (fun _ => ⟨200, "", ""⟩)
    ⟨"123e4567-e89b-12d3-a456-426614174000"⟩
    ⟨"idCard", "front", none, none, none, "/tmp/missing.pdf"⟩
    "No such file or directory (os error 2)" rfl).1

set_option maxRecDepth 8000 in
/-- C4, counterexample: the error semantics of the async and blocking
handlers are not identical for an unparseable non-2xx body.  On the very
same 500 response the async handler's message names the URL while the
blocking one does not, and on a 201-byte body the async handler
truncates at 200 bytes while the blocking one reports the body whole. -/
theorem C4_counterexample :
    handle_response (fun _ => Except.ok Json.null)
      ⟨500, "https://api-dev.raincards.xyz/v1/issuing/users",
       "internal error"⟩ =
      some (.error (.other
        "HTTP 500 Internal Server Error from https://api-dev.raincards.xyz/v1/issuing/users: internal error")) ∧
    handle_blocking_response (fun _ => Except.ok Json.null)
      ⟨500, "https://api-dev.raincards.xyz/v1/issuing/users",
       "internal error"⟩ =
      .error (.other "HTTP 500 Internal Server Error: internal error") ∧
    ("HTTP 500 Internal Server Error from https://api-dev.raincards.xyz/v1/issuing/users: internal error" ≠
       "HTTP 500 Internal Server Error: internal error") ∧
    handle_response (fun _ => Except.ok Json.null) ⟨500, "u", c4LongBody⟩ =
      some (.error (.other ("HTTP 500 Internal Server Error from u: " ++
        (String.mk (List.replicate 200 'a') ++ "...")))) ∧
    handle_blocking_response (fun _ => Except.ok Json.null)
      ⟨500, "u", c4LongBody⟩ =
      .error (.other ("HTTP 500 Internal Server Error: " ++ c4LongBody)) := by
  refine ⟨rfl, rfl, by decide, rfl, rfl⟩

/-- C4, amended: wherever a blocking counterpart exists (GET, raw-bytes
GET, POST, PATCH, PUT, DELETE, no-content multipart PUT) it builds the
identical request — same URL, query, body, headers — and the two response
handlers agree on every success and on every structured API error; the
lone divergence is the payload of the opaque error for an unparseable
non-2xx body (URL and 200-byte truncation in async, full body in
blocking).  The custom-header GET/PUT and the value-returning multipart
PUT have no blocking counterpart at all. -/
theorem C4_amended :
    (∀ (c : RainClient) (op : DispatchOp) (r : Request),
       blockingRequest c op = some r → asyncRequest c op = r) ∧
    (∀ (c : RainClient) (path : String)
       (extra : List (String × String)) (body : Json) (form : Form),
       blockingRequest c (.getWithHeaders path extra) = none ∧
       blockingRequest c (.putWithHeaders path body extra) = none ∧
       blockingRequest c (.putMultipart path form) = none) ∧
    (∀ (α : Type) (dec : Json → Except String α) (r : HttpResponse)
       (x : Except RainError α),
       handle_response dec r = some x →
         agreeUpToOpaque x (handle_blocking_response dec r)) := by
  refine ⟨blockingRequest_eq_asyncRequest, fun c path extra body form =>
    ⟨rfl, rfl, rfl⟩, ?_⟩
  intro α dec r x hx
  obtain ⟨st, u, body⟩ := r
  by_cases h202 : st = 202
  · subst h202
    simp only [handle_response, handle_blocking_response, if_pos rfl] at hx ⊢
    by_cases hb : body = ""
    · rw [if_pos hb] at hx ⊢
      cases hx
      exact agreeUpToOpaque_refl _
    · rw [if_neg hb] at hx ⊢
      cases hx
      exact agreeUpToOpaque_refl _
  · by_cases h2xx : 200 ≤ st ∧ st ≤ 299
    · simp only [handle_response, handle_blocking_response, if_neg h202,
        if_pos h2xx] at hx ⊢
      by_cases hb : body = ""
      · rw [if_pos hb] at hx ⊢
        cases hx
        exact agreeUpToOpaque_refl _
      · rw [if_neg hb] at hx ⊢
        cases hx
        exact agreeUpToOpaque_refl _
    · simp only [handle_response, handle_blocking_response, if_neg h202,
        if_neg h2xx] at hx ⊢
      cases hapi : fromStr decodeApiErrorResponse body with
      | ok e =>
        rw [hapi] at hx
        cases hx
        exact agreeUpToOpaque_refl _
      | error m =>
        rw [hapi] at hx
        cases ht : truncateBody body with
        | none => rw [ht] at hx; cases hx
        | some t =>
          rw [ht] at hx
          cases hx
          trivial

/-- C4, witness: the blocking GET builds the very request the async GET
builds, and a successful 200 response is handled identically. -/
theorem C4_witness :
    asyncRequest ⟨⟨devBase, 30, "rain-sdk/0.5.0"⟩, ⟨"key1"⟩⟩
        (.getJson "/issuing/users") =
      { method := .get,
        url := { scheme := "https", host := "api-dev.raincards.xyz",
                 pathSegments := ["v1", "issuing", "issuing", "users"],
                 query := none },
        headers := [("accept", "application/json"),
                    ("content-type", "application/json"),
                    ("user-agent", "rain-sdk/0.5.0"),
                    ("api-key", "key1")],
        body := none, multipart := none } ∧
    agreeUpToOpaque (Except.ok Json.null)
      (handle_blocking_response decodeJsonValue ⟨200, "u", "null"⟩) :=
  ⟨C4_amended.1 ⟨⟨devBase, 30, "rain-sdk/0.5.0"⟩, ⟨"key1"⟩⟩
      (.getJson "/issuing/users") _ (by rfl),
   C4_amended.2.2 Json decodeJsonValue ⟨200, "u", "null"⟩
      (Except.ok Json.null) (by rfl)⟩

/-- C9: on a successfully constructed client, every dispatcher operation
— JSON verbs, raw-bytes GET, DELETE, custom-header variants whose extra
headers do not shadow the invariant three (every call site passes only
`SessionId`), and the multipart PUTs — issues a request carrying
`Accept: application/json`, the configured `User-Agent`, and the API key
verbatim in `Api-Key`; and so does every blocking counterpart. -/
theorem C9_thm (config : Config) (auth : AuthConfig) (c : RainClient)
    (op : DispatchOp) (hc : RainClient.new config auth = .ok c)
    (hb : benignExtras op) :
    getHeader (asyncRequest c op).headers "Accept" =
      some "application/json" ∧
    getHeader (asyncRequest c op).headers "User-Agent" =
      some config.user_agent ∧
    getHeader (asyncRequest c op).headers "Api-Key" =
      some auth.api_key ∧
    (∀ r, blockingRequest c op = some r →
       getHeader r.headers "Accept" = some "application/json" ∧
       getHeader r.headers "User-Agent" = some config.user_agent ∧
       getHeader r.headers "Api-Key" = some auth.api_key) := by
  have hc' : c = ⟨config, auth⟩ := by
    unfold RainClient.new at hc
    split at hc
    · exact (Except.ok.inj hc).symm
    · cases hc
  subst hc'
  have la : lowerStr "Accept" = "accept" := rfl
  have lu : lowerStr "User-Agent" = "user-agent" := rfl
  have lk : lowerStr "Api-Key" = "api-key" := rfl
  have hstdA : ∀ R : List (String × String),
      (R.any fun q => q.1 = "accept") = false →
      getHeader (mergeHeaders (defaultHeaders config) R) "Accept" =
        some "application/json" := by
    intro R hR
    rw [getHeader_mergeHeaders, la, if_neg (by simp [hR])]
    simp [getHeader, defaultHeaders, List.find?, la]
  have hstdU : ∀ R : List (String × String),
      (R.any fun q => q.1 = "user-agent") = false →
      getHeader (mergeHeaders (defaultHeaders config) R) "User-Agent" =
        some config.user_agent := by
    intro R hR
    rw [getHeader_mergeHeaders, lu, if_neg (by simp [hR])]
    simp [getHeader, defaultHeaders, List.find?, lu]
  have hkeyM : ∀ R : List (String × String),
      getHeader R "Api-Key" = some auth.api_key →
      getHeader (mergeHeaders (defaultHeaders config) R) "Api-Key" =
        some auth.api_key := by
    intro R hR
    by_cases hany : (R.any fun q => q.1 = lowerStr "Api-Key") = true
    · rw [getHeader_mergeHeaders, if_pos hany]
      exact hR
    · exfalso
      rw [Bool.not_eq_true] at hany
      have hnone : R.find? (fun q => q.1 = lowerStr "Api-Key") = none := by
        rw [List.find?_eq_none]
        intro x hx hpx
        simpa [hpx] using List.any_eq_false.mp hany x hx
      unfold getHeader at hR
      rw [hnone] at hR
      cases hR
  have hReqA : ∀ e : List (String × String),
      (∀ p ∈ e, lowerStr p.1 ≠ "accept" ∧ lowerStr p.1 ≠ "user-agent" ∧
        lowerStr p.1 ≠ "api-key") →
      ((("api-key", auth.api_key) ::
          e.map fun p => (lowerStr p.1, p.2)).any
        fun q => q.1 = "accept") = false := by
    intro e he
    simp only [List.any_cons, List.any_map, Bool.or_eq_false_iff]
    refine ⟨by simp, ?_⟩
    rw [List.any_eq_false]
    intro p hp
    simpa using (he p hp).1
  have hReqU : ∀ e : List (String × String),
      (∀ p ∈ e, lowerStr p.1 ≠ "accept" ∧ lowerStr p.1 ≠ "user-agent" ∧
        lowerStr p.1 ≠ "api-key") →
      ((("api-key", auth.api_key) ::
          e.map fun p => (lowerStr p.1, p.2)).any
        fun q => q.1 = "user-agent") = false := by
    intro e he
    simp only [List.any_cons, List.any_map, Bool.or_eq_false_iff]
    refine ⟨by simp, ?_⟩
    rw [List.any_eq_false]
    intro p hp
    simpa using (he p hp).2.1
  have main :
      getHeader (asyncRequest ⟨config, auth⟩ op).headers "Accept" =
        some "application/json" ∧
      getHeader (asyncRequest ⟨config, auth⟩ op).headers "User-Agent" =
        some config.user_agent ∧
      getHeader (asyncRequest ⟨config, auth⟩ op).headers "Api-Key" =
        some auth.api_key := by
    cases op with
    | getJson path =>
      exact ⟨hstdA _ rfl, hstdU _ rfl, hkeyM _ rfl⟩
    | getBytes path =>
      exact ⟨hstdA _ rfl, hstdU _ rfl, hkeyM _ rfl⟩
    | post path body =>
      exact ⟨hstdA _ rfl, hstdU _ rfl, hkeyM _ rfl⟩
    | patch path body =>
      exact ⟨hstdA _ rfl, hstdU _ rfl, hkeyM _ rfl⟩
    | put path body =>
      exact ⟨hstdA _ rfl, hstdU _ rfl, hkeyM _ rfl⟩
    | delete path =>
      exact ⟨hstdA _ rfl, hstdU _ rfl, hkeyM _ rfl⟩
    | getWithHeaders path extra =>
      exact ⟨hstdA _ (hReqA extra hb), hstdU _ (hReqU extra hb),
        hkeyM _ (by simp [getHeader, List.find?, lk])⟩
    | putWithHeaders path body extra =>
      exact ⟨hstdA _ (hReqA extra hb), hstdU _ (hReqU extra hb),
        hkeyM _ (by simp [getHeader, List.find?, lk])⟩
    | putMultipart path form =>
      refine ⟨?_, ?_, ?_⟩
      · show getHeader (mergeHeaders (defaultHeaders config) _) "Accept" = _
        rw [getHeader_mergeHeaders, la, if_pos (by simp)]
        simp [getHeader, List.find?, la]
      · show getHeader (mergeHeaders (defaultHeaders config) _) "User-Agent" = _
        rw [getHeader_mergeHeaders, lu, if_pos (by simp)]
        simp [getHeader, List.find?, lu]
      · exact hkeyM _ (by simp [getHeader, List.find?, lk])
    | putMultipartNoContent path form =>
      refine ⟨?_, ?_, ?_⟩
      · show getHeader (mergeHeaders (defaultHeaders config) _) "Accept" = _
        rw [getHeader_mergeHeaders, la, if_pos (by simp)]
        simp [getHeader, List.find?, la]
      · show getHeader (mergeHeaders (defaultHeaders config) _) "User-Agent" = _
        rw [getHeader_mergeHeaders, lu, if_pos (by simp)]
        simp [getHeader, List.find?, lu]
      · exact hkeyM _ (by simp [getHeader, List.find?, lk])
  refine ⟨main.1, main.2.1, main.2.2, ?_⟩
  intro r hr
  have := blockingRequest_eq_asyncRequest _ _ _ hr
  subst this
  exact main

/-- C9, witness: a valid client and the sole custom-header call shape —
a GET with a `SessionId` header — carry all three headers. -/
theorem C9_witness :
    getHeader
      (asyncRequest ⟨⟨devBase, 30, "rain-sdk/0.5.0"⟩, ⟨"key1"⟩⟩
        (.getWithHeaders "/issuing/cards/1/secrets"
          [("SessionId", "s1")])).headers "Accept" =
      some "application/json" ∧
    getHeader
      (asyncRequest ⟨⟨devBase, 30, "rain-sdk/0.5.0"⟩, ⟨"key1"⟩⟩
        (.getWithHeaders "/issuing/cards/1/secrets"
          [("SessionId", "s1")])).headers "User-Agent" =
      some "rain-sdk/0.5.0" ∧
    getHeader
      (asyncRequest ⟨⟨devBase, 30, "rain-sdk/0.5.0"⟩, ⟨"key1"⟩⟩
        (.getWithHeaders "/issuing/cards/1/secrets"
          [("SessionId", "s1")])).headers "Api-Key" = some "key1" := by
  have h := C9_thm ⟨devBase, 30, "rain-sdk/0.5.0"⟩ ⟨"key1"⟩
    ⟨⟨devBase, 30, "rain-sdk/0.5.0"⟩, ⟨"key1"⟩⟩
    (.getWithHeaders "/issuing/cards/1/secrets" [("SessionId", "s1")])
    (by rfl)
    (by
      intro p hp
      simp only [List.mem_singleton] at hp
      subst hp
      exact ⟨by decide, by decide, by decide⟩)
  exact ⟨h.1, h.2.1, h.2.2.1⟩

end RainSdk
